import Mathlib

/-!
Verification development for the buoyancy-driven autonomous float simulator
(float_lib.py): the float density and force model, the piston actuator
kinematics with unit conversions, the embedded tracking control law, and the
body of the explicit time-stepping loop.

Floating-point computations of the source are modelled over exact real
arithmetic.  The water column object is modelled through the interface the
float code uses (the lookups get_p, get_temp, get_rho by depth); its
interpolation internals and the external equation-of-state oracle are out of
scope, as the spec places them at the interface boundary.  The isopycnal
displacement eta is taken at its default, eta t = 0, so the lookups are time
independent.
-/

open scoped Classical

noncomputable section

/-- Module-level gravity constant of the source (g = 9.81). -/
def g : ℝ := 9.81

/-- Parameters and mutable state of the `autonomous_float` class.
`v?` models the optional presence of the added-volume attribute `self.v`
(probed with hasattr in the source); `z` and `w` are the stored depth and
vertical velocity. -/
structure autonomous_float where
  m : ℝ
  V : ℝ
  gamma : ℝ
  alpha : ℝ
  temp0 : ℝ
  z : ℝ
  w : ℝ
  v? : Option ℝ

/-- The added volume the source resolves when `v` is omitted:
`self.v` when the attribute exists, else `0.`. -/
def autonomous_float.vv (fl : autonomous_float) : ℝ := fl.v?.getD 0

/-- Water column interface used by the float code: interpolated lookups of
pressure, in-situ temperature and water density by depth. -/
structure waterp where
  get_p : ℝ → ℝ
  get_temp : ℝ → ℝ
  get_rho : ℝ → ℝ

/-- The pressure/temperature branch of `autonomous_float.rho`:
m / (V*(1 - gamma*p + alpha*(temp - temp0)) + v). -/
def autonomous_float.rho_pt (fl : autonomous_float) (p temp v : ℝ) : ℝ :=
  fl.m / (fl.V * (1 - fl.gamma * p + fl.alpha * (temp - fl.temp0)) + v)

/-- `autonomous_float.rho` with its optional-argument dispatch.  The order of
the branches follows the source: the (p, temp) pair wins over (z, waterp),
and when neither complete pair is supplied no density is produced (the source
prints a usage message and returns None).
In the (z, waterp) branch the source reads the STORED depth `self.z`, not the
`z` argument (float_lib.py line 76): the embedding reproduces that. -/
def autonomous_float.rho (fl : autonomous_float) (p temp v z : Option ℝ)
    (wp : Option waterp) : Option ℝ :=
  let vres := v.getD fl.vv
  match p, temp with
  | some p0, some t0 => some (fl.rho_pt p0 t0 vres)
  | _, _ =>
    match z, wp with
    | some _, some wpc =>
        some (fl.rho_pt (wpc.get_p fl.z) (wpc.get_temp fl.z) vres)
    | _, _ => none

/-- `autonomous_float.volume`: m / rho(...), defined where rho is defined. -/
def autonomous_float.volume (fl : autonomous_float) (p temp v z : Option ℝ)
    (wp : Option waterp) : Option ℝ :=
  (fl.rho p temp v z wp).map (fun r => fl.m / r)

/-- Output interface of the external 1-D root finder (scipy fsolve): the
estimate it returns and whether it converged.  The source never inspects the
convergence information. -/
structure fsolve_result where
  x : ℝ
  converged : Bool

/-- `autonomous_float.volume4equilibrium`: hands the residual
x ↦ rho_eq - rho(p_eq, temp_eq, x) and the start 0 to the root finder and
returns the first component of whatever comes back, with no inspection of the
convergence information and no failure path (return type ℝ). -/
def autonomous_float.volume4equilibrium (fl : autonomous_float)
    (p_eq temp_eq rho_eq : ℝ) (fsolve : (ℝ → ℝ) → ℝ → fsolve_result) : ℝ :=
  (fsolve (fun x => rho_eq - fl.rho_pt p_eq temp_eq x) 0).x

/-- `autonomous_float._f`: vertical force on the float at depth z.
`v` and `w` default to the current state when omitted. -/
def autonomous_float.f_vert (fl : autonomous_float) (z : ℝ) (wp : waterp)
    (Lv : ℝ) (v w : Option ℝ) : ℝ :=
  let p := wp.get_p z
  let tempw := wp.get_temp z
  let rhow := wp.get_rho z
  let rhof := fl.rho_pt p tempw (v.getD fl.vv)
  let w0 := w.getD fl.w;
  -fl.m * g + fl.m * rhow / rhof * g + -(fl.m / Lv) * |w0| * w0

/-- `autonomous_float._df`: central-difference gradients of the vertical
force with respect to depth (±5e-2), velocity (±5e-3) and added volume
(±5e-5), each divided by twice the probe step. -/
def autonomous_float.df_vert (fl : autonomous_float) (z : ℝ) (wp : waterp)
    (Lv : ℝ) : ℝ × ℝ × ℝ :=
  ((fl.f_vert (z + 5e-2) wp Lv none none
      - fl.f_vert (z - 5e-2) wp Lv none none) / 1e-1,
   (fl.f_vert z wp Lv none (some (fl.w + 5e-3))
      - fl.f_vert z wp Lv none (some (fl.w - 5e-3))) / 1e-2,
   (fl.f_vert z wp Lv (some (fl.vv + 5e-5)) none
      - fl.f_vert z wp Lv (some (fl.vv - 5e-5)) none) / 1e-4)

/-- `autonomous_float._control`: the signed third-derivative tracking law. -/
def control_law (z dz d2z z_t dz_t d2z_t tau_ctrl : ℝ) : ℝ :=
  Real.sign (d2z_t - d2z + 2 * (dz_t - dz) / tau_ctrl + (z_t - z) / tau_ctrl ^ 2)

/-- State of the `piston` class: geometry, kinematic state and bounds. -/
structure piston where
  a : ℝ
  phi : ℝ
  d : ℝ
  vol : ℝ
  omega : ℝ
  lead : ℝ
  dvdt : ℝ
  phi_min : ℝ
  phi_max : ℝ
  d_min : ℝ
  d_max : ℝ
  vol_min : ℝ
  vol_max : ℝ
  omega_min : ℝ
  omega_max : ℝ

/-- piston.omega2dvdt: omega*lead/2*a^2 (the source notes /pi*pi cancelled). -/
def piston.omega2dvdt (p : piston) (omega : ℝ) : ℝ := omega * p.lead / 2 * p.a ^ 2

/-- piston.dvdt2omega: dvdt/(lead/2*a^2). -/
def piston.dvdt2omega (p : piston) (dvdt : ℝ) : ℝ := dvdt / (p.lead / 2 * p.a ^ 2)

/-- piston.phi2d: d_min + (phi - phi_min)/2/pi*lead. -/
def piston.phi2d (p : piston) (phi : ℝ) : ℝ :=
  p.d_min + (phi - p.phi_min) / 2 / Real.pi * p.lead

/-- piston.d2phi: phi_min + (d - d_min)*2*pi/lead. -/
def piston.d2phi (p : piston) (d : ℝ) : ℝ :=
  p.phi_min + (d - p.d_min) * 2 * Real.pi / p.lead

/-- piston.d2vol: vol_min + (d - d_min)*pi*a^2. -/
def piston.d2vol (p : piston) (d : ℝ) : ℝ :=
  p.vol_min + (d - p.d_min) * Real.pi * p.a ^ 2

/-- piston.vol2d: d_min + (vol - vol_min)/(pi*a^2). -/
def piston.vol2d (p : piston) (vol : ℝ) : ℝ :=
  p.d_min + (vol - p.vol_min) / (Real.pi * p.a ^ 2)

/-- piston.phi2vol: d2vol of phi2d. -/
def piston.phi2vol (p : piston) (phi : ℝ) : ℝ := p.d2vol (p.phi2d phi)

/-- piston.vol2phi: d2phi of vol2d. -/
def piston.vol2phi (p : piston) (vol : ℝ) : ℝ := p.d2phi (p.vol2d vol)

/-- piston.update_omega: rotation rates of magnitude below omega_min snap to
0, otherwise the magnitude is clamped to omega_max, preserving sign. -/
def piston.update_omega (p : piston) (omega : ℝ) : piston :=
  if |omega| < p.omega_min then { p with omega := 0 }
  else { p with omega := Real.sign omega * min |omega| p.omega_max }

/-- piston.update_dvdt: recompute dvdt from the current omega. -/
def piston.update_dvdt (p : piston) : piston :=
  { p with dvdt := p.omega2dvdt p.omega }

/-- piston._checkbounds: clamp phi to the interval from phi_min to phi_max. -/
def piston.checkbounds (p : piston) : piston :=
  { p with phi := min (max p.phi p.phi_min) p.phi_max }

/-- piston._bcast_phi: rederive d and vol from phi. -/
def piston.bcast_phi (p : piston) : piston :=
  { p with d := p.phi2d p.phi, vol := p.phi2vol p.phi }

/-- piston.update_phi: integrate phi by omega*dt, clamp, rebroadcast. -/
def piston.update_phi (p : piston) (dt : ℝ) : piston :=
  (({ p with phi := p.phi + p.omega * dt }).checkbounds).bcast_phi

/-- piston.update: convert the desired volume rate to a rotation rate, clamp
it, recompute dvdt, then integrate phi. -/
def piston.update (p : piston) (dt dvdt : ℝ) : piston :=
  ((p.update_omega (p.dvdt2omega dvdt)).update_dvdt).update_phi dt

/-- piston.update_vol: direct-set phi from a target volume, clamp,
rebroadcast. -/
def piston.update_vol (p : piston) (vol : ℝ) : piston :=
  (({ p with phi := p.vol2phi vol }).checkbounds).bcast_phi

/-- The keyword arguments of `autonomous_float.time_step` that the loop body
reads, together with the local variable `z` of `time_step` (here `z0`): the
source passes that local, which keeps its initial value throughout the loop,
to `self._df` (float_lib.py line 248).  `dt_store` is modelled as always
supplied; `uselog` models the `log` flag. -/
structure StepParams where
  wp : waterp
  Lv : ℝ
  dt_step : ℝ
  dt_store : ℝ
  z_target : ℝ → ℝ
  tau_ctrl : ℝ
  d3y_ctrl : ℝ
  dz_nochattering : ℝ
  z0 : ℝ
  usepiston : Bool
  uselog : Bool

/-- The per-iteration mutable state of the time-stepping loop: the float
state, the piston, the simulated time, and the trajectory log (samples
(t, z, w, v, dwdt), appended in time order). -/
structure SimState where
  fl : autonomous_float
  pist : piston
  t : ℝ
  log : List (ℝ × ℝ × ℝ × ℝ × ℝ)

/-- `t_modulo_dt`: the modulo-with-tolerance test, true when t/dt is within
0.25*dt_step/dt of the nearest integer.  The source uses np.rint; `round`
agrees with it on this test whenever the threshold is at most 1/2, because
both pick an integer at the minimal distance from t/dt. -/
def t_modulo_dt (t dt dt_step : ℝ) : Prop :=
  |t / dt - (round (t / dt) : ℝ)| < 0.25 * dt_step / dt

/-- The volume-rate `u` the control branch of `time_step` passes to
`piston.update`.  Mirrors float_lib.py lines 235-253: the trajectory
derivatives by central differences, `f3` probed through
`self.volume(z=self.z±.5, waterp=...)`, the force gradients taken at the
stale local depth `z0`, and the signed third-derivative command. -/
def commandedRate (P : StepParams) (s : SimState) : ℝ :=
  let t := s.t
  let z_t := P.z_target t
  let dz_t := (P.z_target (t + 0.05) - P.z_target (t - 0.05)) / 0.1
  let d2z_t := (P.z_target (t + 0.05) - 2 * P.z_target t + P.z_target (t - 0.05)) / 0.05 ^ 2
  let x2 := s.fl.w
  let f := s.fl.f_vert s.fl.z P.wp P.Lv none none
  let f2 := f / s.fl.m
  let f3 := ((s.fl.volume none none none (some (s.fl.z + 0.5)) (some P.wp)).getD 0
      - (s.fl.volume none none none (some (s.fl.z - 0.5)) (some P.wp)).getD 0) / 1 * x2
  let dd := s.fl.df_vert P.z0 P.wp P.Lv
  let df1 := dd.1 / s.fl.m
  let df2 := dd.2.1 / s.fl.m
  let df3 := dd.2.2 / s.fl.m
  let d3y := P.d3y_ctrl * control_law s.fl.z s.fl.w f2 z_t dz_t d2z_t P.tau_ctrl;
  -(df1 * x2 + df2 * f2 + df3 * f3 - d3y) / df3

/-- The control phase of one loop iteration: when the piston is enabled and
the depth error exceeds the deadband, update the piston with the commanded
rate and set the added volume from the piston volume; otherwise leave both
untouched. -/
def controlled (P : StepParams) (s : SimState) : autonomous_float × piston :=
  if P.usepiston then
    if |s.fl.z - P.z_target s.t| > P.dz_nochattering then
      let pist1 := s.pist.update P.dt_step (commandedRate P s)
      ({ s.fl with v? := some pist1.vol }, pist1)
    else (s.fl, s.pist)
  else (s.fl, s.pist)

/-- The sample `(t, z, w, v, dwdt)` the loop appends when one is due: depth
and velocity are still the pre-update values, the added volume is the
post-control one, and dwdt is the net force (computed at the top of the
iteration) over the mass. -/
def stepSample (P : StepParams) (s : SimState) : ℝ × ℝ × ℝ × ℝ × ℝ :=
  (s.t, (controlled P s).1.z, (controlled P s).1.w, (controlled P s).1.vv,
   s.fl.f_vert s.fl.z P.wp P.Lv none none / s.fl.m)

/-- One iteration of the `time_step` loop body (float_lib.py lines 227-269):
evaluate the net force, run the control phase, append a sample when due, then
the explicit Euler update with the surface clamp, z capped at 0. -/
def timeStepOnce (P : StepParams) (s : SimState) : SimState :=
  let f := s.fl.f_vert s.fl.z P.wp P.Lv none none
  let fl1 := (controlled P s).1
  let pist1 := (controlled P s).2
  let log1 := if P.uselog = true ∧ t_modulo_dt s.t P.dt_store P.dt_step
    then s.log ++ [stepSample P s] else s.log
  { fl := { fl1 with
              z := min (fl1.z + P.dt_step * fl1.w) 0,
              w := fl1.w + P.dt_step * f / s.fl.m },
    pist := pist1, t := s.t + P.dt_step, log := log1 }

/-- Modelled from the spec (section 4.1): the float volume at a supplied
depth, m over the density computed from the pressure and temperature the
water column reports at that depth.  Stated from the words of the spec for
comparison with the source definition, which reads the stored depth
instead. -/
def specVolumeAt (fl : autonomous_float) (wp : waterp) (z : ℝ) : ℝ :=
  fl.m / fl.rho_pt (wp.get_p z) (wp.get_temp z) fl.vv

/-- Modelled from the spec (section 4.3): the commanded volume-rate formula
with dVdz an actual finite-difference volume-per-depth estimate with a
±0.5 m probe at the current state, and the force gradients at the current
depth.  Stated from the words of the spec for comparison with
`commandedRate`, the formula the source computes. -/
def specCommandedRate (P : StepParams) (s : SimState) : ℝ :=
  let t := s.t
  let z_t := P.z_target t
  let dz_t := (P.z_target (t + 0.05) - P.z_target (t - 0.05)) / 0.1
  let d2z_t := (P.z_target (t + 0.05) - 2 * P.z_target t + P.z_target (t - 0.05)) / 0.05 ^ 2
  let x2 := s.fl.w
  let f := s.fl.f_vert s.fl.z P.wp P.Lv none none
  let f2 := f / s.fl.m
  let dVdz := (specVolumeAt s.fl P.wp (s.fl.z + 0.5)
      - specVolumeAt s.fl P.wp (s.fl.z - 0.5)) / 1
  let dd := s.fl.df_vert s.fl.z P.wp P.Lv
  let df1 := dd.1 / s.fl.m
  let df2 := dd.2.1 / s.fl.m
  let df3 := dd.2.2 / s.fl.m
  let d3y := P.d3y_ctrl * control_law s.fl.z s.fl.w f2 z_t dz_t d2z_t P.tau_ctrl;
  -(df1 * x2 + df2 * f2 + df3 * (dVdz * x2) - d3y) / df3

/-! Concrete instances used to instantiate the theorems below. -/

/-- A simple float: unit mass and volume, no compressibility, stored depth
-5 m, at rest, added volume present and 0. -/
def flEx : autonomous_float :=
  { m := 1, V := 1, gamma := 0, alpha := 0, temp0 := 0, z := -5, w := 0,
    v? := some 0 }

/-- The same float before any added volume has been set. -/
def flNone : autonomous_float := { flEx with v? := none }

/-- A mechanically compressible float whose stored depth is the surface. -/
def flC1 : autonomous_float :=
  { m := 1, V := 1, gamma := 1 / 100, alpha := 0, temp0 := 0, z := 0, w := 0,
    v? := some 0 }

/-- The compressible float at depth -10 m, sinking through the column with
unit velocity. -/
def flC2 : autonomous_float :=
  { m := 1, V := 1, gamma := 1 / 100, alpha := 0, temp0 := 0, z := -10,
    w := 1, v? := some 0 }

/-- A stratified water column: pressure grows linearly with depth, uniform
temperature, unit water density. -/
def wpEx : waterp :=
  { get_p := fun z => -z, get_temp := fun _ => 0, get_rho := fun _ => 1 }

/-- A piston with unit geometry and bounds 0 ≤ phi ≤ 1, 0 ≤ d ≤ 1,
0 ≤ vol ≤ 1, rotation-rate band from 1 to 2, at its lower stop. -/
def pistEx : piston :=
  { a := 1, phi := 0, d := 0, vol := 0, omega := 0, lead := 1, dvdt := 0,
    phi_min := 0, phi_max := 1, d_min := 0, d_max := 1, vol_min := 0,
    vol_max := 1, omega_min := 1, omega_max := 2 }

/-- Step parameters for a plain uncontrolled, unlogged run. -/
def Pex : StepParams :=
  { wp := wpEx, Lv := 1, dt_step := 1, dt_store := 60,
    z_target := fun _ => -5, tau_ctrl := 60, d3y_ctrl := 1,
    dz_nochattering := 0, z0 := -5, usepiston := false, uselog := false }

/-- The same parameters with logging enabled. -/
def Pex7 : StepParams := { Pex with uselog := true }

/-- The same parameters with the piston enabled; the target is the current
depth, so the deadband is active. -/
def Pex8 : StepParams := { Pex with usepiston := true }

/-- Control-step parameters for the compressible float: first step, so the
stale local depth z0 coincides with the current depth. -/
def PC2 : StepParams :=
  { wp := wpEx, Lv := 1, dt_step := 1, dt_store := 60,
    z_target := fun _ => -20, tau_ctrl := 1, d3y_ctrl := 0,
    dz_nochattering := 0, z0 := -10, usepiston := true, uselog := true }

/-- Loop state for the plain run. -/
def sEx : SimState := { fl := flEx, pist := pistEx, t := 0, log := [] }

/-- Loop state at the first control step of the compressible-float run. -/
def sC2 : SimState := { fl := flC2, pist := pistEx, t := 0, log := [] }

/-! The claims. -/

/-- Claim C1: the spec says a density query by depth and water column looks
up pressure and temperature at the supplied depth z.  The source instead
reads the stored depth self.z (float_lib.py line 76), so on a float whose
stored depth is the surface, rho(z = -10, waterp) disagrees with
rho(p = get_p(-10), temp = get_temp(-10), v = 0): the code yields the
surface density 1, the claimed value is 10/9. -/
theorem rho_uses_stored_depth_not_argument :
    flC1.rho none none none (some (-10)) (some wpEx)
      ≠ flC1.rho (some (wpEx.get_p (-10))) (some (wpEx.get_temp (-10)))
          (some 0) none none := by
  simp only [autonomous_float.rho, autonomous_float.rho_pt,
    autonomous_float.vv, flC1, wpEx, Option.getD_none, Option.getD_some,
    ne_eq, Option.some.injEq]
  norm_num

/-- Claim C9: the density m / (V*(1 - gamma*p + alpha*(temp - temp0)) + v)
is strictly positive whenever the total volume in the denominator is
positive, and, at fixed pressure and temperature, strictly decreasing in the
added volume v. -/
theorem density_pos_strictly_decreasing (fl : autonomous_float) (p temp : ℝ)
    (hm : 0 < fl.m) :
    (∀ v, 0 < fl.V * (1 - fl.gamma * p + fl.alpha * (temp - fl.temp0)) + v →
        0 < fl.rho_pt p temp v) ∧
    (∀ v1 v2,
        0 < fl.V * (1 - fl.gamma * p + fl.alpha * (temp - fl.temp0)) + v1 →
        0 < fl.V * (1 - fl.gamma * p + fl.alpha * (temp - fl.temp0)) + v2 →
        v1 < v2 → fl.rho_pt p temp v2 < fl.rho_pt p temp v1) := by
  constructor
  · intro v hv
    exact div_pos hm hv
  · intro v1 v2 h1 h2 hlt
    unfold autonomous_float.rho_pt
    exact div_lt_div_of_pos_left hm h1 (by linarith)

/-- Witness for C9 at the unit float: density is positive at v = 1 and
smaller at v = 2 than at v = 1. -/
theorem density_pos_strictly_decreasing_witness :
    0 < flEx.m ∧ 0 < flEx.rho_pt 0 0 1 ∧
      flEx.rho_pt 0 0 2 < flEx.rho_pt 0 0 1 :=
  ⟨by norm_num [flEx],
   (density_pos_strictly_decreasing flEx 0 0 (by norm_num [flEx])).1 1
     (by norm_num [flEx]),
   (density_pos_strictly_decreasing flEx 0 0 (by norm_num [flEx])).2 1 2
     (by norm_num [flEx]) (by norm_num [flEx]) (by norm_num)⟩

/-- Claim C10: when the added-volume argument is omitted, rho uses the
stored added volume when it exists and 0 when it was never set, so on a
fresh float rho(p, temp) = m / (V*(1 - gamma*p + alpha*(temp - temp0))). -/
theorem rho_defaults_added_volume (fl : autonomous_float) (p temp : ℝ) :
    (fl.v? = none →
      fl.rho (some p) (some temp) none none none
        = some (fl.m /
            (fl.V * (1 - fl.gamma * p + fl.alpha * (temp - fl.temp0))))) ∧
    (∀ v0, fl.v? = some v0 →
      fl.rho (some p) (some temp) none none none
        = some (fl.rho_pt p temp v0)) := by
  constructor
  · intro h
    simp [autonomous_float.rho, autonomous_float.rho_pt,
      autonomous_float.vv, h]
  · intro v0 h
    simp [autonomous_float.rho, autonomous_float.vv, h]

/-- Witness for C10 on a fresh float: the density at p = 3, temp = 4 uses
added volume 0. -/
theorem rho_defaults_added_volume_witness :
    flNone.v? = none ∧
    flNone.rho (some 3) (some 4) none none none
      = some (flNone.m /
          (flNone.V * (1 - flNone.gamma * 3 + flNone.alpha * (4 - flNone.temp0)))) :=
  ⟨rfl, (rho_defaults_added_volume flNone 3 4).1 rfl⟩

/-- Claim C3: the claim asks that a non-converged equilibrium solve be
reported as a failure.  The source returns the root-finder estimate
unconditionally — its result type is a bare real with no failure channel and
the convergence information is never inspected — and targets with no exact
solution exist: for the unit float and rho_eq = 0 the residual-defining
density 1 / (1 + v) never vanishes, so whatever comes back is returned as if
it were a solution. -/
theorem volume4equilibrium_no_failure_report :
    (∀ (fl : autonomous_float) (p_eq temp_eq rho_eq : ℝ)
        (fsolve : (ℝ → ℝ) → ℝ → fsolve_result),
        (fsolve (fun x => rho_eq - fl.rho_pt p_eq temp_eq x) 0).converged
            = false →
        fl.volume4equilibrium p_eq temp_eq rho_eq fsolve
          = (fsolve (fun x => rho_eq - fl.rho_pt p_eq temp_eq x) 0).x) ∧
    (∀ v : ℝ,
        flEx.V * (1 - flEx.gamma * 0 + flEx.alpha * (0 - flEx.temp0)) + v ≠ 0 →
        flEx.rho_pt 0 0 v ≠ 0) := by
  constructor
  · intro fl p_eq temp_eq rho_eq fsolve _
    rfl
  · intro v hv
    unfold autonomous_float.rho_pt
    exact div_ne_zero (by norm_num [flEx]) hv

/-- Witness for C3: a solver run flagged non-converged with estimate 37 on
the unsolvable target rho_eq = 0 still yields 37, and no added volume 5
solves the target. -/
theorem volume4equilibrium_no_failure_report_witness :
    flEx.volume4equilibrium 0 0 0 (fun _ _ => ⟨37, false⟩) = 37 ∧
      flEx.rho_pt 0 0 5 ≠ 0 :=
  ⟨volume4equilibrium_no_failure_report.1 flEx 0 0 0 (fun _ _ => ⟨37, false⟩)
     rfl,
   volume4equilibrium_no_failure_report.2 5 (by norm_num [flEx])⟩

/-- Claim C5: on the valid ranges the angle, displacement and volume
conversions are mutually inverse: vol2phi then phi2vol recovers the volume,
d2phi then phi2d recovers the displacement, and phi2d then d2phi recovers
the angle (exactly, over the reals). -/
theorem piston_conversion_roundtrip (p : piston) (hl : p.lead ≠ 0)
    (ha : p.a ≠ 0) :
    (∀ vol, p.vol_min ≤ vol → vol ≤ p.vol_max →
        p.phi2vol (p.vol2phi vol) = vol) ∧
    (∀ d, p.d_min ≤ d → d ≤ p.d_max → p.phi2d (p.d2phi d) = d) ∧
    (∀ phi, p.phi_min ≤ phi → phi ≤ p.phi_max →
        p.d2phi (p.phi2d phi) = phi) := by
  have hpi : Real.pi ≠ 0 := Real.pi_ne_zero
  refine ⟨fun vol _ _ => ?_, fun d _ _ => ?_, fun phi _ _ => ?_⟩ <;>
    (simp only [piston.phi2vol, piston.vol2phi, piston.phi2d, piston.d2phi,
      piston.d2vol, piston.vol2d];
     field_simp;
     ring)

/-- Witness for C5 at the unit piston, instantiating each round trip at the
lower end of its valid range. -/
theorem piston_conversion_roundtrip_witness :
    pistEx.lead ≠ 0 ∧ pistEx.a ≠ 0 ∧
    pistEx.phi2vol (pistEx.vol2phi 0) = 0 ∧
    pistEx.phi2d (pistEx.d2phi 0) = 0 ∧
    pistEx.d2phi (pistEx.phi2d 0) = 0 :=
  ⟨by norm_num [pistEx], by norm_num [pistEx],
   (piston_conversion_roundtrip pistEx (by norm_num [pistEx])
      (by norm_num [pistEx])).1 0 (by norm_num [pistEx]) (by norm_num [pistEx]),
   (piston_conversion_roundtrip pistEx (by norm_num [pistEx])
      (by norm_num [pistEx])).2.1 0 (by norm_num [pistEx]) (by norm_num [pistEx]),
   (piston_conversion_roundtrip pistEx (by norm_num [pistEx])
      (by norm_num [pistEx])).2.2 0 (by norm_num [pistEx]) (by norm_num [pistEx])⟩

/-- Claim C4: after any piston.update with nonnegative dt, starting from a
state within its bounds (and a sane rate band 0 ≤ omega_min ≤ omega_max),
phi lies between phi_min and phi_max and the rotation rate is either 0 or of
magnitude between omega_min and omega_max. -/
theorem piston_update_clamped (p : piston) (dt dvdt : ℝ)
    (hphi1 : p.phi_min ≤ p.phi) (hphi2 : p.phi ≤ p.phi_max)
    (hom0 : 0 ≤ p.omega_min) (hom1 : p.omega_min ≤ p.omega_max)
    (hdt : 0 ≤ dt) :
    p.phi_min ≤ (p.update dt dvdt).phi ∧
    (p.update dt dvdt).phi ≤ p.phi_max ∧
    ((p.update dt dvdt).omega = 0 ∨
      (p.omega_min ≤ |(p.update dt dvdt).omega| ∧
        |(p.update dt dvdt).omega| ≤ p.omega_max)) := by
  have hminmax : p.phi_min ≤ p.phi_max := le_trans hphi1 hphi2
  set w0 := p.dvdt2omega dvdt with hw0
  by_cases h : |w0| < p.omega_min
  · have hq : p.update dt dvdt
        = (({ p with omega := 0 }).update_dvdt).update_phi dt := by
      unfold piston.update piston.update_omega
      rw [← hw0, if_pos h]
    rw [hq]
    simp only [piston.update_dvdt, piston.update_phi, piston.checkbounds,
      piston.bcast_phi]
    refine ⟨le_min (le_max_right _ _) hminmax, min_le_right _ _, Or.inl trivial⟩
  · have habs : p.omega_min ≤ |w0| := not_lt.mp h
    have hq : p.update dt dvdt
        = (({ p with omega := Real.sign w0 * min |w0| p.omega_max
            }).update_dvdt).update_phi dt := by
      unfold piston.update piston.update_omega
      rw [← hw0, if_neg h]
    rw [hq]
    simp only [piston.update_dvdt, piston.update_phi, piston.checkbounds,
      piston.bcast_phi]
    refine ⟨le_min (le_max_right _ _) hminmax, min_le_right _ _, ?_⟩
    rcases lt_trichotomy w0 0 with hneg | hzero | hpos
    · right
      have hmn : (0 : ℝ) ≤ min |w0| p.omega_max :=
        le_min (abs_nonneg _) (le_trans hom0 hom1)
      rw [Real.sign_of_neg hneg, neg_one_mul, abs_neg, abs_of_nonneg hmn]
      exact ⟨le_min habs hom1, min_le_right _ _⟩
    · left
      rw [hzero, Real.sign_zero, zero_mul]
    · right
      have hmn : (0 : ℝ) ≤ min |w0| p.omega_max :=
        le_min (abs_nonneg _) (le_trans hom0 hom1)
      rw [Real.sign_of_pos hpos, one_mul, abs_of_nonneg hmn]
      exact ⟨le_min habs hom1, min_le_right _ _⟩

/-- Witness for C4 at the unit piston: update with dt = 1 and desired rate
3 lands within all clamps. -/
theorem piston_update_clamped_witness :
    pistEx.phi_min ≤ pistEx.phi ∧ pistEx.phi ≤ pistEx.phi_max ∧
    0 ≤ pistEx.omega_min ∧ pistEx.omega_min ≤ pistEx.omega_max ∧
    (0 : ℝ) ≤ 1 ∧
    (pistEx.phi_min ≤ (pistEx.update 1 3).phi ∧
      (pistEx.update 1 3).phi ≤ pistEx.phi_max ∧
      ((pistEx.update 1 3).omega = 0 ∨
        (pistEx.omega_min ≤ |(pistEx.update 1 3).omega| ∧
          |(pistEx.update 1 3).omega| ≤ pistEx.omega_max))) :=
  ⟨by norm_num [pistEx], by norm_num [pistEx], by norm_num [pistEx],
   by norm_num [pistEx], by norm_num,
   piston_update_clamped pistEx 1 3 (by norm_num [pistEx])
     (by norm_num [pistEx]) (by norm_num [pistEx]) (by norm_num [pistEx])
     (by norm_num)⟩

/-- Claim C6: the Euler position update is immediately followed by the
surface clamp, so from any starting depth at or below the surface, the depth
stays at or below the surface after every iteration of the loop, whatever
the forces and the (positive) step size. -/
theorem depth_stays_nonpositive (P : StepParams) (s : SimState)
    (hdt : 0 < P.dt_step) (hz : s.fl.z ≤ 0) :
    ∀ n : ℕ, ((timeStepOnce P)^[n] s).fl.z ≤ 0 := by
  intro n
  induction n with
  | zero => simpa using hz
  | succ k ih =>
    rw [Function.iterate_succ_apply']
    exact min_le_right _ 0

/-- Witness for C6: three iterations of the plain run keep the depth at or
below the surface. -/
theorem depth_stays_nonpositive_witness :
    0 < Pex.dt_step ∧ sEx.fl.z ≤ 0 ∧
      ((timeStepOnce Pex)^[3] sEx).fl.z ≤ 0 :=
  ⟨by norm_num [Pex], by norm_num [sEx, flEx],
   depth_stays_nonpositive Pex sEx (by norm_num [Pex])
     (by norm_num [sEx, flEx]) 3⟩

/-- With dt = 60 and dt_step = 1, the modulo-with-tolerance test holds at t
exactly when t is within 0.25 of some 60-second multiple. -/
lemma t_modulo_dt_60_iff (t : ℝ) :
    t_modulo_dt t 60 1 ↔ ∃ k : ℤ, |t - 60 * (k : ℝ)| < 0.25 := by
  unfold t_modulo_dt
  constructor
  · intro h
    refine ⟨round (t / 60), ?_⟩
    have h2 : t - 60 * ((round (t / 60) : ℤ) : ℝ)
        = 60 * (t / 60 - ((round (t / 60) : ℤ) : ℝ)) := by ring
    rw [h2, abs_mul, abs_of_pos (by norm_num : (0 : ℝ) < 60)]
    nlinarith [h]
  · rintro ⟨k, hk⟩
    have h2 : t / 60 - (k : ℝ) = (t - 60 * (k : ℝ)) / 60 := by ring
    have h1 : |t / 60 - (k : ℝ)| < 0.25 * 1 / 60 := by
      rw [h2, abs_div, abs_of_pos (by norm_num : (0 : ℝ) < 60)]
      linarith
    exact lt_of_le_of_lt (round_le (t / 60) k) h1

/-- Claim C7: with logging enabled, dt_store = 60 and dt_step = 1, one loop
iteration appends the sample (t, z, w, v, dwdt) exactly when the time of the
step is within 0.25 s of an integer multiple of 60 s, and leaves the log
unchanged at every other step. -/
theorem logging_cadence_dt60 (P : StepParams) (s : SimState)
    (hlog : P.uselog = true) (hstore : P.dt_store = 60)
    (hstep : P.dt_step = 1) :
    ((∃ k : ℤ, |s.t - 60 * (k : ℝ)| < 0.25) →
        (timeStepOnce P s).log = s.log ++ [stepSample P s]) ∧
    ((¬ ∃ k : ℤ, |s.t - 60 * (k : ℝ)| < 0.25) →
        (timeStepOnce P s).log = s.log) := by
  constructor
  · intro hk
    have hc : P.uselog = true ∧ t_modulo_dt s.t P.dt_store P.dt_step := by
      refine ⟨hlog, ?_⟩
      rw [hstore, hstep]
      exact (t_modulo_dt_60_iff s.t).mpr hk
    show (if P.uselog = true ∧ t_modulo_dt s.t P.dt_store P.dt_step
        then s.log ++ [stepSample P s] else s.log) = s.log ++ [stepSample P s]
    rw [if_pos hc]
  · intro hk
    have hc : ¬ (P.uselog = true ∧ t_modulo_dt s.t P.dt_store P.dt_step) := by
      rintro ⟨_, hmod⟩
      exact hk ((t_modulo_dt_60_iff s.t).mp (by rwa [hstore, hstep] at hmod))
    show (if P.uselog = true ∧ t_modulo_dt s.t P.dt_store P.dt_step
        then s.log ++ [stepSample P s] else s.log) = s.log
    rw [if_neg hc]

/-- Witness for C7: at t = 0 (within 0.25 of the multiple 0) the logged run
appends the sample of the step. -/
theorem logging_cadence_dt60_witness :
    Pex7.uselog = true ∧ Pex7.dt_store = 60 ∧ Pex7.dt_step = 1 ∧
    (∃ k : ℤ, |sEx.t - 60 * (k : ℝ)| < 0.25) ∧
    (timeStepOnce Pex7 sEx).log = sEx.log ++ [stepSample Pex7 sEx] :=
  ⟨rfl, rfl, rfl, ⟨0, by norm_num [sEx]⟩,
   (logging_cadence_dt60 Pex7 sEx rfl rfl rfl).1 ⟨0, by norm_num [sEx]⟩⟩

/-- Claim C8: with the piston enabled, at a step whose depth error is within
the deadband the control branch is skipped: the piston record (phi, d, vol,
omega, dvdt and all bounds) and the stored added volume are exactly those
before the step. -/
theorem deadband_holds_piston (P : StepParams) (s : SimState)
    (hup : P.usepiston = true)
    (hdz : |s.fl.z - P.z_target s.t| ≤ P.dz_nochattering) :
    (timeStepOnce P s).pist = s.pist ∧ (timeStepOnce P s).fl.v? = s.fl.v? := by
  have hc : controlled P s = (s.fl, s.pist) := by
    unfold controlled
    rw [hup]
    simp only [if_true]
    rw [if_neg (not_lt.mpr hdz)]
  constructor
  · show (controlled P s).2 = s.pist
    rw [hc]
  · show (controlled P s).1.v? = s.fl.v?
    rw [hc]

/-- Witness for C8: at the deadband step (target equals current depth, zero
threshold) the piston and the added volume are unchanged. -/
theorem deadband_holds_piston_witness :
    Pex8.usepiston = true ∧
    |sEx.fl.z - Pex8.z_target sEx.t| ≤ Pex8.dz_nochattering ∧
    (timeStepOnce Pex8 sEx).pist = sEx.pist ∧
    (timeStepOnce Pex8 sEx).fl.v? = sEx.fl.v? := by
  have h : |sEx.fl.z - Pex8.z_target sEx.t| ≤ Pex8.dz_nochattering := by
    norm_num [sEx, flEx, Pex8, Pex]
  exact ⟨rfl, h, (deadband_holds_piston Pex8 sEx rfl h).1,
    (deadband_holds_piston Pex8 sEx rfl h).2⟩

/-- Claim C2: the spec formula for the commanded volume-rate carries the
term ∂F/∂v · dVdz · w with dVdz a ±0.5 m finite-difference volume-per-depth
estimate.  In the source that probe goes through volume(z = self.z ± 0.5,
waterp), and rho ignores the supplied depth in favour of the stored one, so
the two probed volumes coincide and the term is identically zero.  At the
first control step of the compressible float in the stratified column the
code commands -40601/98100 while the spec formula yields -41582/98100. -/
theorem commanded_rate_drops_dVdz_term :
    commandedRate PC2 sC2 ≠ specCommandedRate PC2 sC2 := by
  have h1 : commandedRate PC2 sC2 = -(40601 / 98100 : ℝ) := by
    simp only [commandedRate, PC2, sC2, flC2, wpEx, autonomous_float.volume,
      autonomous_float.rho, autonomous_float.rho_pt, autonomous_float.vv,
      autonomous_float.f_vert, autonomous_float.df_vert, control_law, g,
      Option.getD_some, Option.getD_none, Option.map_some]
    norm_num [abs_of_pos]
  have h2 : specCommandedRate PC2 sC2 = -(41582 / 98100 : ℝ) := by
    simp only [specCommandedRate, specVolumeAt, PC2, sC2, flC2, wpEx,
      autonomous_float.rho_pt, autonomous_float.vv,
      autonomous_float.f_vert, autonomous_float.df_vert, control_law, g,
      Option.getD_some, Option.getD_none]
    norm_num [abs_of_pos]
  rw [h1, h2]
  norm_num
